import Mathlib

/-!
Verification development for the debug-mcp-server core: the Q&A Session
Coordinator (`QuestionSessionManager` in `src/storage/questions.ts`), the
report store (`ReportStorage` in `src/storage/reports.ts`), the backlog
store (`BacklogStorage` in `src/storage/backlog.ts`) and the screenshot
store (`ScreenshotStorage` in `src/storage/screenshots.ts`), shallowly
embedded as pure Lean functions over explicit state.

Times (`Date.now()` values, timestamps, timeouts) are modelled as `Int`,
matching JavaScript number arithmetic on integral millisecond values.
JavaScript `Map`s are modelled as association lists with `Map.set`
overwrite-in-place / append-at-end semantics; `Map.delete` removes the
entry.  Asynchrony is modelled by making each timer callback an explicit
state-transition function, fired by an external scheduler.
-/

namespace DebugMCP

/-! ## Association-list model of a JavaScript Map keyed by strings -/

/-- Models `map.get(k)`: the value at the first entry whose key is `k`. -/
def lookupA {α : Type} (k : String) : List (String × α) → Option α
  | [] => none
  | (k2, v) :: rest => if k2 = k then some v else lookupA k rest

/-- Models `map.set(k, v)`: overwrite in place if the key is present, else append. -/
def setA {α : Type} (m : List (String × α)) (k : String) (v : α) : List (String × α) :=
  match m with
  | [] => [(k, v)]
  | (k2, v2) :: rest => if k2 = k then (k2, v) :: rest else (k2, v2) :: setA rest k v

/-- Models `map.delete(k)` on a map used as a key set (value irrelevant). -/
def removeKey (l : List String) (k : String) : List String :=
  l.filter (fun k2 => k2 ≠ k)

/-- Models `map.set(k, v)` on a map used as a key set: present keys stay in place,
absent keys are appended. -/
def addKey (l : List String) (k : String) : List String :=
  if k ∈ l then l else l ++ [k]

/-! ## Data model (`src/types/index.ts`) -/

/-- Models `QuestionType = 'text' | 'multipleChoice' | 'boolean'`. -/
inductive QuestionType
  | text
  | multipleChoice
  | boolean
deriving DecidableEq, Repr

/-- Models `Question` from `src/types/index.ts`. -/
structure Question where
  id : String
  text : String
  type : QuestionType
  options : Option (List String)
  required : Bool
deriving DecidableEq, Repr

/-- Models `Answer` from `src/types/index.ts`. -/
structure Answer where
  questionId : String
  answer : String
  timestamp : Int
deriving DecidableEq, Repr

/-- Models `SessionStatus = 'pending' | 'answered' | 'timeout'`. -/
inductive SessionStatus
  | pending
  | answered
  | timeout
deriving DecidableEq, Repr

/-- Models `QuestionSession` from `src/types/index.ts`. -/
structure QuestionSession where
  id : String
  questions : List Question
  answers : List Answer
  status : SessionStatus
  createdAt : Int
  answeredAt : Option Int
  timeoutMs : Int
deriving DecidableEq, Repr

/-! ## Session Coordinator (`QuestionSessionManager`, `src/storage/questions.ts`)

The manager holds three `Map`s keyed by session id: `sessions`,
`resolvers` (the stored `resolve` callbacks of suspended `waitForAnswers`
promises) and `timeouts` (armed per-session `setTimeout` handles).  The
`resolvers` and `timeouts` maps are modelled as key sets, since only entry
presence is observable in the embedding; the promise each resolver would
settle is tracked in the ghost field `waiters`, which records, for each
caller that suspended in `waitForAnswers`, whether its promise is still
unsettled, was resolved with answers, or was rejected with a Timeout
error. -/

/-- Settlement state of the promise a suspended `waitForAnswers` caller
holds: still unsettled, resolved with the submitted answers, or rejected
with a `Session timed out` error. -/
inductive WaiterOutcome
  | waiting
  | resolvedWith (answers : List Answer)
  | rejectedTimeout
deriving DecidableEq, Repr

/-- The in-memory state of a `QuestionSessionManager`. -/
structure CoordState where
  sessions : List (String × QuestionSession)
  resolvers : List String
  timeouts : List String
  waiters : List (String × WaiterOutcome)
deriving DecidableEq, Repr

/-- The empty manager (all maps empty, as after construction). -/
def CoordState.empty : CoordState :=
  { sessions := [], resolvers := [], timeouts := [], waiters := [] }

/-- Models `createSession(questions, timeoutMs)` at time `now`.  The id produced
by `generateId(12)` — 12 hex characters of `randomBytes` output — is
passed in as `sessionId`; the manager performs no freshness check on it
and stores the new record with `Map.set`, so a colliding random draw
overwrites the record already held under that id.  A timer of `timeoutMs`
firing `timeoutSession sessionId` is armed (membership in `timeouts`).
Returns the id. -/
def createSession (st : CoordState) (questions : List Question) (timeoutMs : Int)
    (now : Int) (sessionId : String) : String × CoordState :=
  let session : QuestionSession :=
    { id := sessionId, questions := questions, answers := [], status := .pending,
      createdAt := now, answeredAt := none, timeoutMs := timeoutMs }
  (sessionId,
   { st with
     sessions := setA st.sessions sessionId session,
     timeouts := addKey st.timeouts sessionId })

/-- Models `getSession(sessionId)` (returning `none` for the source's `null`). -/
def getSession (st : CoordState) (sessionId : String) : Option QuestionSession :=
  lookupA sessionId st.sessions

/-- Models `submitAnswers(sessionId, answers)` at time `now`.  Returns `false`
and leaves the state untouched when the session is missing or not
`pending`; otherwise records the answers, flips the status to `answered`,
stamps `answeredAt`, clears the armed timer if present, and, if a
resolver is registered, resolves the suspended waiter with the answers
and deletes the resolver entry. -/
def submitAnswers (st : CoordState) (now : Int) (sessionId : String)
    (answers : List Answer) : Bool × CoordState :=
  match lookupA sessionId st.sessions with
  | none => (false, st)
  | some session =>
    if session.status ≠ .pending then (false, st)
    else
      let session2 : QuestionSession :=
        { session with answers := answers, status := .answered, answeredAt := some now }
      let st2 := { st with sessions := setA st.sessions sessionId session2 }
      let st3 :=
        if sessionId ∈ st2.timeouts then
          { st2 with timeouts := removeKey st2.timeouts sessionId }
        else st2
      let st4 :=
        if sessionId ∈ st3.resolvers then
          { st3 with
            waiters := setA st3.waiters sessionId (.resolvedWith answers),
            resolvers := removeKey st3.resolvers sessionId }
        else st3
      (true, st4)

/-- Synchronous outcome of a `waitForAnswers(sessionId)` call: the thrown
`Session not found` error, an immediate resolution with the stored
answers, the thrown `Session timed out` error, or suspension on a fresh
promise. -/
inductive WaitResult
  | notFound
  | immediate (answers : List Answer)
  | timedOutErr
  | suspended
deriving DecidableEq, Repr

/-- The synchronous part of `waitForAnswers(sessionId)`: throws NotFound
for an unknown session, returns the stored answers at once when the
session is already `answered`, throws Timeout when it is already
`timeout`, and otherwise registers the promise resolver
(`resolvers.set(sessionId, resolve)`) and suspends; the caller-local
`setTimeout(..., session.timeoutMs)` armed at the same moment is fired by
the scheduler as the separate transition `waitLocalTimeout`. -/
def waitForAnswers (st : CoordState) (sessionId : String) : WaitResult × CoordState :=
  match lookupA sessionId st.sessions with
  | none => (.notFound, st)
  | some session =>
    match session.status with
    | .answered => (.immediate session.answers, st)
    | .timeout => (.timedOutErr, st)
    | .pending =>
      (.suspended,
       { st with
         resolvers := addKey st.resolvers sessionId,
         waiters := setA st.waiters sessionId .waiting })

/-- The caller-local timer callback armed inside `waitForAnswers`: when
it fires, it rejects the suspended promise with a Timeout error only if
`resolvers.has(sessionId)` still holds (deleting the entry); otherwise it
does nothing. -/
def waitLocalTimeout (st : CoordState) (sessionId : String) : CoordState :=
  if sessionId ∈ st.resolvers then
    { st with
      resolvers := removeKey st.resolvers sessionId,
      waiters := setA st.waiters sessionId .rejectedTimeout }
  else st

/-- Models `timeoutSession(sessionId)`, the per-session timer callback: a no-op
unless the session exists and is still `pending`, in which case it flips
the status to `timeout` and deletes the resolver entry if one is
registered.  Note that it only deletes the resolver — it does not settle
the suspended waiter's promise. -/
def timeoutSession (st : CoordState) (sessionId : String) : CoordState :=
  match lookupA sessionId st.sessions with
  | none => st
  | some session =>
    if session.status ≠ .pending then st
    else
      let st2 :=
        { st with sessions := setA st.sessions sessionId { session with status := .timeout } }
      if sessionId ∈ st2.resolvers then
        { st2 with resolvers := removeKey st2.resolvers sessionId }
      else st2

/-- Models `cleanup(olderThanMs)` at time `now`: removes every session whose
`createdAt` is strictly below `now - olderThanMs`, clearing the armed
timer and the resolver entry of each removed session. -/
def cleanup (st : CoordState) (now : Int) (olderThanMs : Int) : CoordState :=
  let cutoff := now - olderThanMs
  let stale : List String :=
    (st.sessions.filter (fun kv => kv.2.createdAt < cutoff)).map Prod.fst
  { sessions := st.sessions.filter (fun kv => ¬ kv.2.createdAt < cutoff),
    resolvers := st.resolvers.filter (fun k => k ∉ stale),
    timeouts := st.timeouts.filter (fun k => k ∉ stale),
    waiters := st.waiters }

/-- Models `getActiveSessionCount()`: the number of sessions whose status is
`pending`. -/
def getActiveSessionCount (st : CoordState) : Nat :=
  (st.sessions.filter (fun kv => kv.2.status = .pending)).length

/-- The ids of the sessions currently held in the manager's map. -/
def sessionIds (st : CoordState) : List String :=
  st.sessions.map Prod.fst

/-! ## Debug report data model (`src/types/index.ts`) -/

/-- Models `LogEntry.level = 'log' | 'warn' | 'error'`. -/
inductive LogLevel
  | log
  | warn
  | error
deriving DecidableEq, Repr

/-- Models `LogEntry` from `src/types/index.ts`. -/
structure LogEntry where
  level : LogLevel
  message : String
  timestamp : Int
  stack : Option String
deriving DecidableEq, Repr

/-- Models `ErrorInfo` from `src/types/index.ts`. -/
structure ErrorInfo where
  message : String
  stack : String
  fileName : Option String
  lineNumber : Option Int
  columnNumber : Option Int
deriving DecidableEq, Repr

/-- Models `AttachedFile` from `src/types/index.ts`. -/
structure AttachedFile where
  filename : String
  content : String
  mimeType : String
deriving DecidableEq, Repr

/-- Models `DebugReport` from `src/types/index.ts`. -/
structure DebugReport where
  id : String
  timestamp : Int
  url : String
  userAgent : String
  logs : List LogEntry
  error : Option ErrorInfo
  screenshot : Option String
  comment : String
  files : Option (List AttachedFile)
deriving DecidableEq, Repr

/-! ## `JSON.stringify(report, null, 2)`

`ReportStorage.saveReport` writes `JSON.stringify(report, null, 2)` in
UTF-8; the only observation any claim makes of the file content beyond
the parsed report is its byte size (`stat(filePath).size`), so the
serializer below models the V8 pretty printer: two-space indentation,
fields in interface/insertion order, `undefined` (here `none`) properties
omitted, strings escaped as V8 does. -/

/-- Lower-case hexadecimal digit, for JSON `\u00..` escapes. -/
def hexDigit (n : Nat) : Char :=
  if n < 10 then Char.ofNat (48 + n) else Char.ofNat (87 + n)

/-- How `JSON.stringify` renders one character inside a string literal. -/
def jsonEscapeChar (c : Char) : String :=
  if c = '"' then "\\\""
  else if c = '\\' then "\\\\"
  else if c = '\n' then "\\n"
  else if c = '\r' then "\\r"
  else if c = '\t' then "\\t"
  else if c = '\x08' then "\\b"
  else if c = '\x0c' then "\\f"
  else if c.toNat < 32 then
    "\\u00" ++ String.mk [hexDigit (c.toNat / 16), hexDigit (c.toNat % 16)]
  else String.mk [c]

/-- A JSON string literal. -/
def jsonStr (s : String) : String :=
  "\"" ++ String.join (s.toList.map jsonEscapeChar) ++ "\""

/-- A pretty-printed JSON object whose closing brace sits at indent
`ind`; `fields` pairs each key with its already-rendered value. -/
def jsonObject (ind : String) (fields : List (String × String)) : String :=
  match fields with
  | [] => "\x7b\x7d"
  | _ =>
    "\x7b\n" ++
    String.intercalate ",\n"
      (fields.map (fun f => ind ++ "  " ++ jsonStr f.1 ++ ": " ++ f.2)) ++
    "\n" ++ ind ++ "\x7d"

/-- A pretty-printed JSON array whose closing bracket sits at indent
`ind`. -/
def jsonArray (ind : String) (elems : List String) : String :=
  match elems with
  | [] => "[]"
  | _ =>
    "[\n" ++ String.intercalate ",\n" (elems.map (fun e => ind ++ "  " ++ e)) ++
    "\n" ++ ind ++ "]"

/-- A field that `JSON.stringify` omits when the value is `undefined`. -/
def optJsonField (key : String) : Option String → List (String × String)
  | none => []
  | some v => [(key, v)]

/-- The serialized form of a `LogEntry.level` value. -/
def logLevelStr : LogLevel → String
  | .log => "log"
  | .warn => "warn"
  | .error => "error"

/-- A `LogEntry` rendered at indent `ind`. -/
def logEntryJson (ind : String) (e : LogEntry) : String :=
  jsonObject ind
    ([("level", jsonStr (logLevelStr e.level)),
      ("message", jsonStr e.message),
      ("timestamp", toString e.timestamp)] ++
     optJsonField "stack" (e.stack.map jsonStr))

/-- An `ErrorInfo` rendered at indent `ind`. -/
def errorInfoJson (ind : String) (e : ErrorInfo) : String :=
  jsonObject ind
    ([("message", jsonStr e.message), ("stack", jsonStr e.stack)] ++
     optJsonField "fileName" (e.fileName.map jsonStr) ++
     optJsonField "lineNumber" (e.lineNumber.map toString) ++
     optJsonField "columnNumber" (e.columnNumber.map toString))

/-- An `AttachedFile` rendered at indent `ind`. -/
def attachedFileJson (ind : String) (f : AttachedFile) : String :=
  jsonObject ind
    [("filename", jsonStr f.filename),
     ("content", jsonStr f.content),
     ("mimeType", jsonStr f.mimeType)]

/-- Models `JSON.stringify(report, null, 2)`. -/
def debugReportJson (r : DebugReport) : String :=
  jsonObject ""
    ([("id", jsonStr r.id),
      ("timestamp", toString r.timestamp),
      ("url", jsonStr r.url),
      ("userAgent", jsonStr r.userAgent),
      ("logs", jsonArray "  " (r.logs.map (logEntryJson "    ")))] ++
     optJsonField "error" (r.error.map (errorInfoJson "  ")) ++
     optJsonField "screenshot" (r.screenshot.map jsonStr) ++
     [("comment", jsonStr r.comment)] ++
     optJsonField "files" (r.files.map (fun fs => jsonArray "  " (fs.map (attachedFileJson "    ")))))

/-! ## Report store (`ReportStorage`, `src/storage/reports.ts`)

The store's directory subtree under `reports/` is modelled as an
association list from date-partition directory name to the list of
`report-*.json` files in that directory, each file pairing the parsed
`DebugReport` with its byte size as reported by `stat`.  Directory
listing order models `readdir` order. -/

/-- One stored `report-*.json` file: its parsed content and its size in
bytes (`JSON.parse` round-trips the structures above, so the model keeps
the report value itself). -/
structure StoredFile where
  report : DebugReport
  size : Nat
deriving DecidableEq, Repr

/-- The `reports/` subtree: `(dateDir, files)` entries, files keyed by
filename. -/
abbrev ReportFS : Type := List (String × List (String × StoredFile))

/-- Models `getDateDir`: the partition name `YYYY-MM-DD` computed from the
report timestamp via the `Date` fields `getFullYear`, `getMonth + 1` and
`getDate`, each day/month zero-padded to two digits.  The source uses the
host timezone; the model computes the civil date in UTC (the standard
days-to-civil algorithm), which is the host behavior at UTC offset 0.  No
claim depends on the partition-naming function beyond its determinism. -/
def civilFromDays (z0 : Int) : Int × Int × Int :=
  let z := z0 + 719468
  let era := Int.fdiv z 146097
  let doe := z - era * 146097
  let yoe := (doe - doe / 1460 + doe / 36524 - doe / 146096) / 365
  let y := yoe + era * 400
  let doy := doe - (365 * yoe + yoe / 4 - yoe / 100)
  let mp := (5 * doy + 2) / 153
  let d := doy - (153 * mp + 2) / 5 + 1
  let m := mp + (if mp < 10 then 3 else -9)
  (y + (if m ≤ 2 then 1 else 0), m, d)

/-- Models `String(n).padStart(2, '0')`. -/
def padZero2 (n : Int) : String :=
  if 0 ≤ n ∧ n < 10 then "0" ++ toString n else toString n

/-- The date-partition directory name for a report timestamp (ms). -/
def getDateDir (timestamp : Int) : String :=
  let c := civilFromDays (Int.fdiv timestamp 86400000)
  toString c.1 ++ "-" ++ padZero2 c.2.1 ++ "-" ++ padZero2 c.2.2

/-- The filename `report-$id.json` of a stored report. -/
def reportFileName (reportId : String) : String :=
  "report-" ++ reportId ++ ".json"

/-- Write a file into a date-partition directory, creating the directory
(`ensureDir`) if absent and overwriting an existing file of the same
name. -/
def setDirFile (fs : ReportFS) (dir fileName : String) (f : StoredFile) : ReportFS :=
  match fs with
  | [] => [(dir, [(fileName, f)])]
  | (d, files) :: rest =>
    if d = dir then (d, setA files fileName f) :: rest
    else (d, files) :: setDirFile rest dir fileName f

/-- Models `saveReport(report)`: writes `JSON.stringify(report, null, 2)` to
`reports/<dateDir(report.timestamp)>/report-<report.id>.json`, creating
the partition directory if needed and silently overwriting a file of the
same name. -/
def saveReport (fs : ReportFS) (r : DebugReport) : ReportFS :=
  setDirFile fs (getDateDir r.timestamp) (reportFileName r.id)
    { report := r, size := (debugReportJson r).utf8ByteSize }

/-- The scan loop of `getReport`: try `report-<id>.json` in each date
directory in `readdir` order, returning the first parse that succeeds. -/
def getReportLoop (fname : String) : ReportFS → Option DebugReport
  | [] => none
  | (_, files) :: rest =>
    match lookupA fname files with
    | some f => some f.report
    | none => getReportLoop fname rest

/-- Models `getReport(reportId)`: scans the date partitions for a file named
`report-<reportId>.json` and returns the parsed document, or `none`. -/
def getReport (fs : ReportFS) (reportId : String) : Option DebugReport :=
  getReportLoop (reportFileName reportId) fs

/-- The inner loop of `deleteOldReports` over one partition's files:
every report file whose `timestamp` is strictly below the cutoff is
deleted, adding its `stat` size to `freedBytes` and one to
`deletedCount`; returns the remaining files and the two tallies. -/
def sweepFiles (cutoff : Int) : List (String × StoredFile) →
    List (String × StoredFile) × Nat × Nat
  | [] => ([], 0, 0)
  | (name, f) :: rest =>
    let r := sweepFiles cutoff rest
    if f.report.timestamp < cutoff then (r.1, r.2.1 + 1, r.2.2 + f.size)
    else ((name, f) :: r.1, r.2.1, r.2.2)

/-- The outer loop of `deleteOldReports` over the date partitions: sweep
each partition's files, then remove the partition directory when nothing
remains in it. -/
def sweepDirs (cutoff : Int) : ReportFS → ReportFS × Nat × Nat
  | [] => ([], 0, 0)
  | (d, files) :: rest =>
    let swept := sweepFiles cutoff files
    let restR := sweepDirs cutoff rest
    ((if swept.1.isEmpty then restR.1 else (d, swept.1) :: restR.1),
     swept.2.1 + restR.2.1, swept.2.2 + restR.2.2)

/-- Models `deleteOldReports(olderThanDays)` at time `now`: cutoff is
`now - olderThanDays * 24 * 60 * 60 * 1000`; returns the new store state
together with `deletedCount` and `freedBytes`. -/
def deleteOldReports (fs : ReportFS) (now : Int) (olderThanDays : Int) :
    ReportFS × Nat × Nat :=
  sweepDirs (now - olderThanDays * 24 * 60 * 60 * 1000) fs

/-! ## Backlog store (`BacklogStorage`, `src/storage/backlog.ts`) -/

/-- Models `BacklogItem.priority = 'critical' | 'high' | 'medium' | 'low'`. -/
inductive Priority
  | critical
  | high
  | medium
  | low
deriving DecidableEq, Repr

/-- Models `BacklogItem.status`. -/
inductive BacklogStatus
  | pending
  | in_progress
  | resolved
  | dismissed
deriving DecidableEq, Repr

/-- Models `BacklogItem` from `src/storage/backlog.ts`. -/
structure BacklogItem where
  id : String
  reportId : String
  projectPath : Option String
  comment : String
  url : String
  timestamp : Int
  priority : Priority
  status : BacklogStatus
  createdAt : Int
  updatedAt : Int
deriving DecidableEq, Repr

/-- The optional `options` argument of `listItems`; `none` in a field
models an absent (`undefined`) property. -/
structure ListOptions where
  status : Option BacklogStatus
  priority : Option Priority
  projectPath : Option String
  limit : Option Nat
deriving DecidableEq, Repr

/-- A `listItems` call with no `options` argument. -/
def ListOptions.noOpts : ListOptions :=
  { status := none, priority := none, projectPath := none, limit := none }

/-- The filter block of `listItems`.  Each filter is guarded by JS
truthiness of the option value: the `status` and `priority` enum strings
are always non-empty (truthy), but a supplied `projectPath` of `""` is
falsy and disables that filter; `item.projectPath` may itself be
`undefined`, in which case it differs from any supplied string. -/
def passesFilters (o : ListOptions) (item : BacklogItem) : Bool :=
  (match o.status with
   | none => true
   | some s => item.status = s) &&
  (match o.priority with
   | none => true
   | some p => item.priority = p) &&
  (match o.projectPath with
   | none => true
   | some p => if p = "" then true else item.projectPath = some p)

/-- Models `priorityOrder`: critical 0, high 1, medium 2, low 3. -/
def priorityOrder : Priority → Nat
  | .critical => 0
  | .high => 1
  | .medium => 2
  | .low => 3

/-- The comparator passed to `items.sort`: priority-rank difference,
ties decided by `b.createdAt - a.createdAt` (newest first). -/
def compareItems (a b : BacklogItem) : Int :=
  let priorityDiff : Int :=
    (priorityOrder a.priority : Int) - (priorityOrder b.priority : Int)
  if priorityDiff ≠ 0 then priorityDiff else b.createdAt - a.createdAt

/-- Stable insertion of `x` into an already sorted list: `x` is placed
before the first element it need not follow. -/
def insertJS {α : Type} (cmp : α → α → Int) (x : α) : List α → List α
  | [] => [x]
  | y :: ys => if cmp x y ≤ 0 then x :: y :: ys else y :: insertJS cmp x ys

/-- Models `Array.prototype.sort(cmp)`: stable (ES2019) and, for a consistent
comparator such as `compareItems`, uniquely determined — modelled by a
stable insertion sort. -/
def sortJS {α : Type} (cmp : α → α → Int) (l : List α) : List α :=
  l.foldr (insertJS cmp) []

/-- Models `listItems(options?)` applied to the parsed backlog files in
`readdir` order: filters, sorts with `compareItems`, then truncates with
`slice(0, limit)` when `options.limit` is truthy (in particular a limit
of `0` is falsy and applies no truncation). -/
def listItems (files : List BacklogItem) (o : ListOptions) : List BacklogItem :=
  let items := files.filter (passesFilters o)
  let sorted := sortJS compareItems items
  match o.limit with
  | some n => if n ≠ 0 then sorted.take n else sorted
  | none => sorted

/-! ## Screenshot store (`ScreenshotStorage`, `src/storage/screenshots.ts`)
and `extractBase64` (`src/lib/utils.ts`) -/

/-- The four characters the JS regex metacharacter `.` (no `s` flag)
refuses to match: LF, CR, U+2028, U+2029. -/
def isLineTerminator (c : Char) : Bool :=
  c = '\n' || c = '\r' || c = ' ' || c = ' '

/-- Split a character list at its first `';'`; `none` when no `';'`
occurs. -/
def splitAtSemi : List Char → Option (List Char × List Char)
  | [] => none
  | c :: rest =>
    if c = ';' then some ([], rest)
    else (splitAtSemi rest).map (fun p => (c :: p.1, p.2))

/-- Does `p` occur at the start of `s`? -/
def charsStartWith : List Char → List Char → Bool
  | [], _ => true
  | _ :: _, [] => false
  | p :: ps, c :: cs => p = c && charsStartWith ps cs

/-- The match of `/^data:([^;]+);base64,(.+)$/` against a character
list, returning the two capture groups `(mimeType, base64Data)`.  Since
`[^;]+` cannot cross a `';'`, the first group is exactly the text before
the first `';'`; `.` matches every character except the four line
terminators, and `$` (no `m` flag) anchors at the very end. -/
def regexMatchDataUri (s : List Char) : Option (List Char × List Char) :=
  if charsStartWith ("data:".toList) s then
    match splitAtSemi (s.drop 5) with
    | none => none
    | some (mime, afterSemi) =>
      if mime ≠ [] ∧ charsStartWith ("base64,".toList) afterSemi then
        let payload := afterSemi.drop 7
        if payload ≠ [] ∧ payload.all (fun c => ¬ isLineTerminator c) then
          some (mime, payload)
        else none
      else none
  else none

/-- The value of a base64 alphabet character (standard plus the URL-safe
`-` and `_`, both accepted by Node); `none` for every other character,
which `Buffer.from(s, 'base64')` ignores. -/
def b64Val (c : Char) : Option Nat :=
  if 'A' ≤ c ∧ c ≤ 'Z' then some (c.toNat - 65)
  else if 'a' ≤ c ∧ c ≤ 'z' then some (c.toNat - 97 + 26)
  else if '0' ≤ c ∧ c ≤ '9' then some (c.toNat - 48 + 52)
  else if c = '+' ∨ c = '-' then some 62
  else if c = '/' ∨ c = '_' then some 63
  else none

/-- Decode a stream of 6-bit values into bytes, four values to three
bytes, with Node's handling of a short tail (two values give one byte,
three give two, a lone value is dropped). -/
def b64DecodeVals : List Nat → List Nat
  | a :: b :: c :: d :: rest =>
    (a * 4 + b / 16) :: ((b % 16) * 16 + c / 4) :: ((c % 4) * 64 + d) ::
      b64DecodeVals rest
  | [a, b] => [a * 4 + b / 16]
  | [a, b, c] => [a * 4 + b / 16, (b % 16) * 16 + c / 4]
  | _ => []

/-- Models `Buffer.from(s, 'base64')`: Node's forgiving decoder — characters
outside the base64 alphabet (including padding `=` and whitespace) are
skipped, then the value stream is decoded. -/
def bufferFromBase64 (s : List Char) : List Nat :=
  b64DecodeVals (s.filterMap b64Val)

/-- The record `extractBase64` returns: the decoded bytes and the MIME
type capture. -/
structure ExtractedData where
  data : List Nat
  mimeType : String
deriving DecidableEq, Repr

/-- Models `extractBase64(dataUri)` from `src/lib/utils.ts`: `none` when the
regex does not match, otherwise the decoded payload and the MIME type. -/
def extractBase64 (dataUri : String) : Option ExtractedData :=
  match regexMatchDataUri dataUri.toList with
  | none => none
  | some (mime, payload) =>
    some { data := bufferFromBase64 payload, mimeType := String.mk mime }

/-- The two validation errors `saveScreenshot` can throw. -/
inductive ScreenshotError
  | invalidDataUri
  | invalidMimeType (mimeType : String)
deriving DecidableEq, Repr

/-- The `screenshots/` directory: filename to file bytes. -/
abbrev ScreenshotFS : Type := List (String × List Nat)

/-- Models `saveScreenshot(reportId, dataUri)`: throws `Invalid base64 data
URI` when `extractBase64` fails, throws `Invalid MIME type` when the
MIME type does not start with `image/`, and otherwise writes the decoded
bytes to `screenshot-<reportId>.png` and returns that filename together
with the updated directory. -/
def saveScreenshot (store : ScreenshotFS) (reportId : String) (dataUri : String) :
    Except ScreenshotError (String × ScreenshotFS) :=
  match extractBase64 dataUri with
  | none => .error .invalidDataUri
  | some extracted =>
    if ¬ charsStartWith ("image/".toList) extracted.mimeType.toList then
      .error (.invalidMimeType extracted.mimeType)
    else
      let fileName := "screenshot-" ++ reportId ++ ".png"
      .ok (fileName, setA store fileName extracted.data)

/-! ## Lemmas about the Map model -/

theorem lookupA_setA_self {α : Type} (m : List (String × α)) (k : String) (v : α) :
    lookupA k (setA m k v) = some v := by
  induction m with
  | nil => simp [setA, lookupA]
  | cons hd tl ih =>
    by_cases h : hd.1 = k
    · simp [setA, lookupA, h]
    · simpa [setA, lookupA, h] using ih

theorem lookupA_setA_ne {α : Type} (m : List (String × α)) (k k2 : String) (v : α)
    (h : k ≠ k2) : lookupA k2 (setA m k v) = lookupA k2 m := by
  induction m with
  | nil => simp [setA, lookupA, h]
  | cons hd tl ih =>
    by_cases h2 : hd.1 = k
    · simp [setA, lookupA, h2, h]
    · by_cases h3 : hd.1 = k2 <;> simp [setA, lookupA, h2, h3, ih, Ne.symm h]

theorem lookupA_eq_none_of_not_mem {α : Type} (m : List (String × α)) (k : String)
    (h : k ∉ m.map Prod.fst) : lookupA k m = none := by
  induction m with
  | nil => rfl
  | cons hd tl ih =>
    simp only [List.map_cons, List.mem_cons] at h
    push_neg at h
    simp [lookupA, Ne.symm h.1, ih h.2]

theorem setA_eq_append_of_not_mem {α : Type} (m : List (String × α)) (k : String)
    (v : α) (h : k ∉ m.map Prod.fst) : setA m k v = m ++ [(k, v)] := by
  induction m with
  | nil => rfl
  | cons hd tl ih =>
    simp only [List.map_cons, List.mem_cons] at h
    push_neg at h
    simp [setA, Ne.symm h.1, ih h.2]

theorem not_mem_removeKey (l : List String) (k : String) : k ∉ removeKey l k := by
  simp [removeKey, List.mem_filter]

theorem lookupA_filter_none {α : Type} (p : String × α → Bool) (m : List (String × α))
    (k : String) (h : lookupA k m = none) : lookupA k (m.filter p) = none := by
  induction m with
  | nil => rfl
  | cons hd tl ih =>
    by_cases h2 : hd.1 = k
    · simp [lookupA, h2] at h
    · simp only [lookupA, h2, if_false] at h
      by_cases hp : p hd <;> simp [List.filter, hp, lookupA, h2, ih h]

theorem lookupA_filter_some {α : Type} (p : String × α → Bool) (m : List (String × α))
    (k : String) (v : α) (nd : (m.map Prod.fst).Nodup)
    (h : lookupA k (m.filter p) = some v) : lookupA k m = some v := by
  induction m with
  | nil => simp [List.filter, lookupA] at h
  | cons hd tl ih =>
    simp only [List.map_cons, List.nodup_cons] at nd
    by_cases h2 : hd.1 = k
    · have hnone : lookupA k tl = none := by
        refine lookupA_eq_none_of_not_mem tl k (fun hmem => nd.1 ?_)
        exact h2 ▸ hmem
      by_cases hp : p hd
      · simp only [List.filter, hp, lookupA, h2, if_true] at h ⊢
        exact h
      · simp only [List.filter, hp] at h
        rw [lookupA_filter_none p tl k hnone] at h
        exact absurd h (by simp)
    · by_cases hp : p hd <;>
        simp only [List.filter, hp, lookupA, h2, if_false] at h ⊢ <;>
        exact ih nd.2 h

/-! ## Coordinator theorems -/

/-- A status transition the session state machine allows in one step:
stay put, or move from `pending` to one of the two terminal statuses. -/
def statusEvolves (a b : SessionStatus) : Prop :=
  a = b ∨ (a = .pending ∧ (b = .answered ∨ b = .timeout))

/-- The coordinator operations named by the spec's state-machine
invariant (`createSession` aside), including the caller-local timer
callback that belongs to `waitForAnswers`. -/
inductive CoordOp
  | submit (now : Int) (sessionId : String) (answers : List Answer)
  | timeoutFire (sessionId : String)
  | wait (sessionId : String)
  | localTimer (sessionId : String)
  | clean (now : Int) (olderThanMs : Int)

/-- The state transition each coordinator operation performs. -/
def applyOp (st : CoordState) : CoordOp → CoordState
  | .submit now sid ans => (submitAnswers st now sid ans).2
  | .timeoutFire sid => timeoutSession st sid
  | .wait sid => (waitForAnswers st sid).2
  | .localTimer sid => waitLocalTimeout st sid
  | .clean now olderThanMs => cleanup st now olderThanMs

theorem submitAnswers_sessions_eq (st : CoordState) (now : Int) (sid : String)
    (ans : List Answer) :
    (submitAnswers st now sid ans).2.sessions = st.sessions ∨
    ∃ session, lookupA sid st.sessions = some session ∧ session.status = .pending ∧
      (submitAnswers st now sid ans).2.sessions =
        setA st.sessions sid
          { session with answers := ans, status := .answered, answeredAt := some now } := by
  cases hq : lookupA sid st.sessions with
  | none =>
    left
    simp only [submitAnswers, hq]
  | some session =>
    by_cases hp : session.status = .pending
    · refine Or.inr ⟨session, rfl, hp, ?_⟩
      simp only [submitAnswers, hq]
      rw [if_neg (by simp [hp])]
      split <;> split <;> rfl
    · left
      simp only [submitAnswers, hq]
      rw [if_pos hp]

theorem timeoutSession_sessions_eq (st : CoordState) (sid : String) :
    (timeoutSession st sid).sessions = st.sessions ∨
    ∃ session, lookupA sid st.sessions = some session ∧ session.status = .pending ∧
      (timeoutSession st sid).sessions =
        setA st.sessions sid { session with status := .timeout } := by
  cases hq : lookupA sid st.sessions with
  | none =>
    left
    simp only [timeoutSession, hq]
  | some session =>
    by_cases hp : session.status = .pending
    · refine Or.inr ⟨session, rfl, hp, ?_⟩
      simp only [timeoutSession, hq]
      rw [if_neg (by simp [hp])]
      split <;> rfl
    · left
      simp only [timeoutSession, hq]
      rw [if_pos hp]

theorem waitForAnswers_sessions (st : CoordState) (sid : String) :
    (waitForAnswers st sid).2.sessions = st.sessions := by
  cases hq : lookupA sid st.sessions with
  | none => simp [waitForAnswers, hq]
  | some session =>
    cases hs : session.status <;> simp [waitForAnswers, hq, hs]

theorem waitLocalTimeout_sessions (st : CoordState) (sid : String) :
    (waitLocalTimeout st sid).sessions = st.sessions := by
  unfold waitLocalTimeout
  split <;> rfl

/-- Transitions of the shape `setA _ sid (pending session flipped to a
terminal status)` respect the state machine at every id. -/
theorem statusEvolves_of_setA (st : CoordState) (sid : String)
    (session session2 : QuestionSession)
    (hq : lookupA sid st.sessions = some session) (hp : session.status = .pending)
    (hterm : session2.status = .answered ∨ session2.status = .timeout)
    (id : String) (s s2 : QuestionSession)
    (h1 : lookupA id st.sessions = some s)
    (h2 : lookupA id (setA st.sessions sid session2) = some s2) :
    statusEvolves s.status s2.status := by
  by_cases hid : sid = id
  · subst hid
    rw [hq] at h1
    rw [lookupA_setA_self] at h2
    cases h1; cases h2
    exact Or.inr ⟨hp, hterm⟩
  · rw [lookupA_setA_ne st.sessions sid id session2 hid, h1] at h2
    cases h2
    exact Or.inl rfl

/-- Claim C1: every session created by `createSession` starts with
status `pending`, and none of the coordinator operations
(`submitAnswers`, `timeoutSession`, `waitForAnswers` with its local
timer, `cleanup`) ever moves a session out of a terminal status or back
to `pending`: whenever a session is present before and after an
operation, its status either stays put or moves from `pending` to
exactly one of `answered` or `timeout`. -/
theorem C1_session_status_machine :
    (∀ st qs t now sid,
      getSession (createSession st qs t now sid).2 sid =
        some { id := sid, questions := qs, answers := [], status := .pending,
               createdAt := now, answeredAt := none, timeoutMs := t }) ∧
    (∀ st op id s s2, (sessionIds st).Nodup →
      getSession st id = some s → getSession (applyOp st op) id = some s2 →
      statusEvolves s.status s2.status) := by
  constructor
  · intro st qs t now sid
    simp only [createSession, getSession]
    exact lookupA_setA_self st.sessions sid _
  · intro st op id s s2 nd h1 h2
    simp only [getSession] at h1 h2
    cases op with
    | submit now sid ans =>
      simp only [applyOp] at h2
      rcases submitAnswers_sessions_eq st now sid ans with he | ⟨session, hq, hp, he⟩
      · rw [he, h1] at h2; cases h2; exact Or.inl rfl
      · rw [he] at h2
        exact statusEvolves_of_setA st sid session _ hq hp (Or.inl rfl) id s s2 h1 h2
    | timeoutFire sid =>
      simp only [applyOp] at h2
      rcases timeoutSession_sessions_eq st sid with he | ⟨session, hq, hp, he⟩
      · rw [he, h1] at h2; cases h2; exact Or.inl rfl
      · rw [he] at h2
        exact statusEvolves_of_setA st sid session _ hq hp (Or.inr rfl) id s s2 h1 h2
    | wait sid =>
      simp only [applyOp, waitForAnswers_sessions, h1] at h2
      cases h2; exact Or.inl rfl
    | localTimer sid =>
      simp only [applyOp, waitLocalTimeout_sessions, h1] at h2
      cases h2; exact Or.inl rfl
    | clean now olderThanMs =>
      simp only [applyOp, cleanup] at h2
      have := lookupA_filter_some _ st.sessions id s2 nd h2
      rw [h1] at this; cases this; exact Or.inl rfl

/-- Witness for C1 at a concrete state: a pending session answered by
`submitAnswers` takes the `pending → answered` step. -/
theorem C1_session_status_machine_witness :
    (sessionIds (createSession CoordState.empty [] 100 0 "s1").2).Nodup ∧
    statusEvolves SessionStatus.pending SessionStatus.answered := by
  constructor
  · decide
  · have h := C1_session_status_machine.2
      (createSession CoordState.empty [] 100 0 "s1").2
      (.submit 5 "s1" []) "s1"
      { id := "s1", questions := [], answers := [], status := .pending,
        createdAt := 0, answeredAt := none, timeoutMs := 100 }
      { id := "s1", questions := [], answers := [], status := .answered,
        createdAt := 0, answeredAt := some 5, timeoutMs := 100 }
      (by decide) (by decide) (by decide)
    exact h

/-- Claim C4: `submitAnswers` on a `pending` session returns `true`,
stores exactly the given answers, flips the status to `answered`, stamps
`answeredAt` with the current time, disarms the session timer, and, when
a caller is suspended in `waitForAnswers` for that session (a resolver is
registered), resolves that waiter with exactly the submitted answers. -/
theorem submitAnswers_pending_eq (st : CoordState) (now : Int) (sid : String)
    (ans : List Answer) (session : QuestionSession)
    (hq : lookupA sid st.sessions = some session) (hp : session.status = .pending) :
    submitAnswers st now sid ans =
      (true,
       { sessions := setA st.sessions sid
           { session with answers := ans, status := .answered, answeredAt := some now },
         resolvers := if sid ∈ st.resolvers then removeKey st.resolvers sid else st.resolvers,
         timeouts := if sid ∈ st.timeouts then removeKey st.timeouts sid else st.timeouts,
         waiters := if sid ∈ st.resolvers then setA st.waiters sid (.resolvedWith ans)
                    else st.waiters }) := by
  simp only [submitAnswers, hq]
  rw [if_neg (by simp [hp])]
  by_cases ht : sid ∈ st.timeouts <;> by_cases hr : sid ∈ st.resolvers <;>
    simp [ht, hr]

theorem C4_submitAnswers_success (st : CoordState) (now : Int) (sid : String)
    (ans : List Answer) (s : QuestionSession)
    (hs : getSession st sid = some s) (hp : s.status = .pending) :
    (submitAnswers st now sid ans).1 = true ∧
    getSession (submitAnswers st now sid ans).2 sid =
      some { s with answers := ans, status := .answered, answeredAt := some now } ∧
    sid ∉ (submitAnswers st now sid ans).2.timeouts ∧
    (sid ∈ st.resolvers →
      lookupA sid (submitAnswers st now sid ans).2.waiters =
        some (.resolvedWith ans) ∧
      sid ∉ (submitAnswers st now sid ans).2.resolvers) := by
  simp only [getSession] at hs
  rw [submitAnswers_pending_eq st now sid ans s hs hp]
  refine ⟨rfl, ?_, ?_, ?_⟩
  · simp only [getSession]
    exact lookupA_setA_self st.sessions sid _
  · by_cases ht : sid ∈ st.timeouts <;>
      simp [ht, not_mem_removeKey st.timeouts sid]
  · intro hres
    simp [hres, lookupA_setA_self st.waiters sid, not_mem_removeKey st.resolvers sid]

/-- Witness for C4 at a concrete state: one pending session with a
suspended waiter, answered at time 7. -/
theorem C4_submitAnswers_success_witness :
    getSession (waitForAnswers (createSession CoordState.empty [] 100 0 "s1").2 "s1").2 "s1" =
      some { id := "s1", questions := [], answers := [], status := .pending,
             createdAt := 0, answeredAt := none, timeoutMs := 100 } ∧
    QuestionSession.status
      { id := "s1", questions := [], answers := [], status := .pending,
        createdAt := 0, answeredAt := none, timeoutMs := 100 } = .pending ∧
    ((submitAnswers (waitForAnswers (createSession CoordState.empty [] 100 0 "s1").2 "s1").2
        7 "s1" [{ questionId := "q1", answer := "yes", timestamp := 7 }]).1 = true ∧
     getSession (submitAnswers
        (waitForAnswers (createSession CoordState.empty [] 100 0 "s1").2 "s1").2
        7 "s1" [{ questionId := "q1", answer := "yes", timestamp := 7 }]).2 "s1" =
      some { id := "s1", questions := [],
             answers := [{ questionId := "q1", answer := "yes", timestamp := 7 }],
             status := .answered, createdAt := 0, answeredAt := some 7, timeoutMs := 100 } ∧
     "s1" ∉ (submitAnswers
        (waitForAnswers (createSession CoordState.empty [] 100 0 "s1").2 "s1").2
        7 "s1" [{ questionId := "q1", answer := "yes", timestamp := 7 }]).2.timeouts ∧
     ("s1" ∈ (waitForAnswers (createSession CoordState.empty [] 100 0 "s1").2 "s1").2.resolvers →
       lookupA "s1" (submitAnswers
          (waitForAnswers (createSession CoordState.empty [] 100 0 "s1").2 "s1").2
          7 "s1" [{ questionId := "q1", answer := "yes", timestamp := 7 }]).2.waiters =
        some (.resolvedWith [{ questionId := "q1", answer := "yes", timestamp := 7 }]) ∧
       "s1" ∉ (submitAnswers
          (waitForAnswers (createSession CoordState.empty [] 100 0 "s1").2 "s1").2
          7 "s1" [{ questionId := "q1", answer := "yes", timestamp := 7 }]).2.resolvers)) :=
  ⟨by decide, by decide,
   C4_submitAnswers_success
     (waitForAnswers (createSession CoordState.empty [] 100 0 "s1").2 "s1").2
     7 "s1" [{ questionId := "q1", answer := "yes", timestamp := 7 }]
     { id := "s1", questions := [], answers := [], status := .pending,
       createdAt := 0, answeredAt := none, timeoutMs := 100 }
     (by decide) (by decide)⟩

/-- Claim C5: `submitAnswers` on a missing session, or on a session that
is not `pending`, returns `false` and leaves the whole coordinator state
(every map, hence every session record) exactly as it was. -/
theorem C5_submitAnswers_failure_frame (st : CoordState) (now : Int) (sid : String)
    (ans : List Answer)
    (h : getSession st sid = none ∨
         ∃ s, getSession st sid = some s ∧ s.status ≠ .pending) :
    submitAnswers st now sid ans = (false, st) := by
  simp only [getSession] at h
  rcases h with h | ⟨s, hs, hp⟩
  · simp only [submitAnswers, h]
  · simp only [submitAnswers, hs]
    rw [if_pos hp]

/-- Witness for C5 at concrete states: an unknown session id, and a
session already `answered`. -/
theorem C5_submitAnswers_failure_frame_witness :
    (getSession CoordState.empty "nope" = none ∧
     submitAnswers CoordState.empty 3 "nope" [] = (false, CoordState.empty)) ∧
    submitAnswers
      (submitAnswers (createSession CoordState.empty [] 100 0 "s1").2 7 "s1" []).2
      9 "s1" [{ questionId := "q1", answer := "no", timestamp := 9 }] =
    (false, (submitAnswers (createSession CoordState.empty [] 100 0 "s1").2 7 "s1" []).2) :=
  ⟨⟨by decide, C5_submitAnswers_failure_frame CoordState.empty 3 "nope" [] (Or.inl (by decide))⟩,
   C5_submitAnswers_failure_frame
     (submitAnswers (createSession CoordState.empty [] 100 0 "s1").2 7 "s1" []).2
     9 "s1" [{ questionId := "q1", answer := "no", timestamp := 9 }]
     (Or.inr ⟨{ id := "s1", questions := [], answers := [], status := .answered,
                createdAt := 0, answeredAt := some 7, timeoutMs := 100 },
              by decide, by decide⟩)⟩

/-- Claim C3, counterexample: `createSession` performs no freshness
check on the id drawn by `generateId(12)` (12 hex characters of random
bytes, which can repeat).  When the draw collides with a currently-held
session id, the call returns an id that is NOT distinct from the held
ids and `Map.set` overwrites the existing session record: here a second
`createSession` whose draw repeats `"aabbccddeeff"` replaces the record
created by the first call. -/
theorem C3_collision_overwrites :
    (createSession (createSession CoordState.empty [] 100 0 "aabbccddeeff").2
        [] 200 50 "aabbccddeeff").1 = "aabbccddeeff" ∧
    "aabbccddeeff" ∈ sessionIds (createSession CoordState.empty [] 100 0 "aabbccddeeff").2 ∧
    getSession (createSession (createSession CoordState.empty [] 100 0 "aabbccddeeff").2
        [] 200 50 "aabbccddeeff").2 "aabbccddeeff" ≠
      getSession (createSession CoordState.empty [] 100 0 "aabbccddeeff").2 "aabbccddeeff" := by
  decide

/-- Claim C3 (amended): `createSession` stores the new record under the
id produced by `generateId(12)` without any check against the held
sessions; whenever that generated id differs from every currently-held
session id — which the code leaves to the randomness of the draw — the
returned id is fresh, no existing record is overwritten (the held-id
list just grows by the new id), every other session record is untouched,
and id uniqueness among held sessions is preserved. -/
theorem C3_fresh_id_no_overwrite (st : CoordState) (qs : List Question)
    (t now : Int) (sid : String) (hfresh : sid ∉ sessionIds st) :
    (createSession st qs t now sid).1 = sid ∧
    getSession st sid = none ∧
    sessionIds (createSession st qs t now sid).2 = sessionIds st ++ [sid] ∧
    (∀ id2, id2 ≠ sid →
      getSession (createSession st qs t now sid).2 id2 = getSession st id2) ∧
    ((sessionIds st).Nodup → (sessionIds (createSession st qs t now sid).2).Nodup) := by
  simp only [sessionIds] at hfresh
  refine ⟨rfl, lookupA_eq_none_of_not_mem st.sessions sid hfresh, ?_, ?_, ?_⟩
  · simp only [createSession, sessionIds,
      setA_eq_append_of_not_mem st.sessions sid _ hfresh, List.map_append, List.map_cons,
      List.map_nil]
  · intro id2 hne
    simp only [createSession, getSession]
    exact lookupA_setA_ne st.sessions sid id2 _ (fun he => hne he.symm)
  · intro nd
    simp only [sessionIds] at nd ⊢
    simp only [createSession, setA_eq_append_of_not_mem st.sessions sid _ hfresh,
      List.map_append, List.map_cons, List.map_nil]
    rw [List.nodup_append]
    refine ⟨nd, List.nodup_singleton sid, ?_⟩
    intro a ha hb
    simp only [List.mem_singleton] at hb
    exact hfresh (hb ▸ ha)

/-- Witness for the amended C3: creating a session under a fresh id in a
one-session coordinator. -/
theorem C3_fresh_id_no_overwrite_witness :
    "s2" ∉ sessionIds (createSession CoordState.empty [] 100 0 "s1").2 ∧
    sessionIds (createSession (createSession CoordState.empty [] 100 0 "s1").2
        [] 200 50 "s2").2 =
      sessionIds (createSession CoordState.empty [] 100 0 "s1").2 ++ ["s2"] :=
  ⟨by decide,
   (C3_fresh_id_no_overwrite (createSession CoordState.empty [] 100 0 "s1").2
      [] 200 50 "s2" (by decide)).2.2.1⟩

/-- Claim C2, evaluated at the failing input: a session is created at
t=0 with `timeoutMs = 100`, a caller suspends in `waitForAnswers` at
some t ≥ 0, and no `submitAnswers` arrives.  The per-session timer's
deadline (createdAt + 100) is never later than the caller-local timer's
deadline (call time + 100), and timers with equal deadlines fire in
arming order, so `timeoutSession` always runs first.  It flips the
status to `timeout` — the first half of the claim holds — but it also
deletes the resolver entry, so when the caller-local timer fires, its
`resolvers.has(sessionId)` guard is false and the rejection it would
perform is skipped: the suspended caller's promise is settled by nobody
and remains unsettled forever (a later `submitAnswers` is also refused,
the session no longer being `pending`), contradicting the claimed
`fails with a Timeout error`.  The source's own comment in
`timeoutSession` (`Resolver will handle rejection via timeout in
waitForAnswers`) promises exactly the rejection that this deletion
prevents. -/
theorem C2_timed_out_waiter_never_settled :
    (waitForAnswers (createSession CoordState.empty [] 100 0 "s1").2 "s1").1 =
      .suspended ∧
    getSession
      (waitLocalTimeout
        (timeoutSession
          (waitForAnswers (createSession CoordState.empty [] 100 0 "s1").2 "s1").2
          "s1")
        "s1") "s1" =
      some { id := "s1", questions := [], answers := [], status := .timeout,
             createdAt := 0, answeredAt := none, timeoutMs := 100 } ∧
    lookupA "s1"
      (waitLocalTimeout
        (timeoutSession
          (waitForAnswers (createSession CoordState.empty [] 100 0 "s1").2 "s1").2
          "s1")
        "s1").waiters = some .waiting ∧
    (submitAnswers
      (waitLocalTimeout
        (timeoutSession
          (waitForAnswers (createSession CoordState.empty [] 100 0 "s1").2 "s1").2
          "s1")
        "s1") 200 "s1" [{ questionId := "q1", answer := "late", timestamp := 200 }]).1 =
      false ∧
    (waitLocalTimeout
      (timeoutSession
        (waitForAnswers (createSession CoordState.empty [] 100 0 "s1").2 "s1").2
        "s1")
      "s1").resolvers = [] := by
  decide

/-! ## Report store theorems -/

theorem getReportLoop_setDirFile (fs : ReportFS) (dir fname : String) (f : StoredFile)
    (h : ∀ d files, (d, files) ∈ fs → d ≠ dir → lookupA fname files = none) :
    getReportLoop fname (setDirFile fs dir fname f) = some f.report := by
  induction fs with
  | nil => simp [setDirFile, getReportLoop, lookupA]
  | cons hd rest ih =>
    obtain ⟨d, files⟩ := hd
    by_cases hd2 : d = dir
    · subst hd2
      simp [setDirFile, getReportLoop, lookupA_setA_self]
    · have h1 : lookupA fname files = none :=
        h d files (List.mem_cons_self _ _) hd2
      simp only [setDirFile, hd2, if_false, getReportLoop, h1]
      exact ih (fun d2 fl2 hm hne => h d2 fl2 (List.mem_cons_of_mem _ hm) hne)

/-- Claim C6: `saveReport(r)` followed by `getReport(r.id)` returns a
document equal to `r` — the round trip through the day-partitioned JSON
store — provided (the spec's global-uniqueness invariant on report ids)
no other date partition holds a file named `report-<r.id>.json`; the
partition of `r`'s own date may hold one, since `saveReport` overwrites
it. -/
theorem C6_saveReport_getReport_roundTrip (fs : ReportFS) (r : DebugReport)
    (h : ∀ d files, (d, files) ∈ fs → d ≠ getDateDir r.timestamp →
      lookupA (reportFileName r.id) files = none) :
    getReport (saveReport fs r) r.id = some r :=
  getReportLoop_setDirFile fs (getDateDir r.timestamp) (reportFileName r.id)
    { report := r, size := (debugReportJson r).utf8ByteSize } h

/-- Witness for C6: round trip of a small report through a store that
already holds an unrelated report under the same id in no other
partition. -/
theorem C6_saveReport_getReport_roundTrip_witness :
    getReport
      (saveReport
        [("2023-01-01",
          [("report-x.json",
            { report := { id := "x", timestamp := 1672531200000, url := "u2",
                          userAgent := "ua2", logs := [], error := none,
                          screenshot := none, comment := "other", files := none },
              size := 9 })])]
        { id := "a", timestamp := 0, url := "u", userAgent := "ua", logs := [],
          error := none, screenshot := none, comment := "c", files := none })
      "a" =
    some { id := "a", timestamp := 0, url := "u", userAgent := "ua", logs := [],
           error := none, screenshot := none, comment := "c", files := none } :=
  C6_saveReport_getReport_roundTrip _ _ (by
    intro d files hm hne
    simp only [List.mem_singleton] at hm
    cases hm
    decide)

/-- The claim-side characterization of the sweep's effect on the store:
within every partition keep exactly the files whose timestamp is at or
above the cutoff, then drop every partition directory left empty. -/
def keptStore (fs : ReportFS) (cutoff : Int) : ReportFS :=
  (fs.map (fun df => (df.1, df.2.filter (fun nf => ¬ nf.2.report.timestamp < cutoff)))).filter
    (fun df => ¬ df.2.isEmpty)

/-- The claim-side count of report documents older than the cutoff. -/
def oldCount (fs : ReportFS) (cutoff : Int) : Nat :=
  (fs.map (fun df => (df.2.filter (fun nf => nf.2.report.timestamp < cutoff)).length)).sum

/-- The claim-side sum of the file sizes of the documents older than the
cutoff. -/
def oldBytes (fs : ReportFS) (cutoff : Int) : Nat :=
  (fs.map (fun df =>
    ((df.2.filter (fun nf => nf.2.report.timestamp < cutoff)).map
      (fun nf => nf.2.size)).sum)).sum

theorem sweepFiles_eq (cutoff : Int) (files : List (String × StoredFile)) :
    sweepFiles cutoff files =
      (files.filter (fun nf => ¬ nf.2.report.timestamp < cutoff),
       (files.filter (fun nf => nf.2.report.timestamp < cutoff)).length,
       ((files.filter (fun nf => nf.2.report.timestamp < cutoff)).map
         (fun nf => nf.2.size)).sum) := by
  induction files with
  | nil => rfl
  | cons hd tl ih =>
    by_cases h : hd.2.report.timestamp < cutoff
    · simp [sweepFiles, List.filter_cons, h, ih, Nat.add_comm, not_le.mpr h]
    · simp [sweepFiles, List.filter_cons, h, ih, Nat.add_comm, not_lt.mp h]

theorem sweepDirs_eq (cutoff : Int) (fs : ReportFS) :
    sweepDirs cutoff fs = (keptStore fs cutoff, oldCount fs cutoff, oldBytes fs cutoff) := by
  induction fs with
  | nil => rfl
  | cons hd rest ih =>
    obtain ⟨d, files⟩ := hd
    simp only [sweepDirs]
    rw [sweepFiles_eq cutoff files, ih]
    cases hb : (files.filter (fun nf => ¬ nf.2.report.timestamp < cutoff)).isEmpty
    all_goals
      simp only [keptStore, oldCount, oldBytes, List.map_cons, List.filter_cons,
        List.sum_cons, hb]
    all_goals simp

/-- Claim C7: `deleteOldReports(olderThanDays)` at time `now` deletes
exactly the report documents whose timestamp is strictly below
`now - olderThanDays * 86400000`, leaves every newer document in place,
returns `deletedCount` equal to the number of deleted documents and
`freedBytes` equal to the sum of their file sizes, and removes exactly
the date-partition directories left empty by the sweep. -/
theorem C7_deleteOldReports_characterization (fs : ReportFS) (now olderThanDays : Int) :
    deleteOldReports fs now olderThanDays =
      (keptStore fs (now - olderThanDays * 24 * 60 * 60 * 1000),
       oldCount fs (now - olderThanDays * 24 * 60 * 60 * 1000),
       oldBytes fs (now - olderThanDays * 24 * 60 * 60 * 1000)) :=
  sweepDirs_eq (now - olderThanDays * 24 * 60 * 60 * 1000) fs

/-! ## Backlog store theorems -/

/-- The ordering the spec words describe for `listItems` output: `a` may
precede `b` when `a`'s priority rank is strictly smaller, or the ranks
tie and `a` was created no earlier than `b` (newest first). -/
def itemLE (a b : BacklogItem) : Prop :=
  priorityOrder a.priority < priorityOrder b.priority ∨
  (priorityOrder a.priority = priorityOrder b.priority ∧ b.createdAt ≤ a.createdAt)

theorem compareItems_nonpos_iff (a b : BacklogItem) :
    compareItems a b ≤ 0 ↔ itemLE a b := by
  simp only [compareItems, itemLE]
  split <;> omega

theorem itemLE_total (a b : BacklogItem) : itemLE a b ∨ itemLE b a := by
  unfold itemLE
  omega

theorem itemLE_trans (a b c : BacklogItem) (h1 : itemLE a b) (h2 : itemLE b c) :
    itemLE a c := by
  unfold itemLE at h1 h2 ⊢
  omega

theorem insertJS_perm {α : Type} (cmp : α → α → Int) (x : α) (l : List α) :
    List.Perm (insertJS cmp x l) (x :: l) := by
  induction l with
  | nil => exact List.Perm.refl _
  | cons y ys ih =>
    by_cases h : cmp x y ≤ 0
    · simp only [insertJS, if_pos h]
      exact List.Perm.refl _
    · simp only [insertJS, if_neg h]
      exact (ih.cons y).trans (List.Perm.swap x y ys)

theorem sortJS_perm {α : Type} (cmp : α → α → Int) (l : List α) :
    List.Perm (sortJS cmp l) l := by
  induction l with
  | nil => exact List.Perm.refl _
  | cons y ys ih =>
    exact (insertJS_perm cmp y (sortJS cmp ys)).trans (ih.cons y)

theorem mem_insertJS {α : Type} (cmp : α → α → Int) (x : α) (l : List α) (z : α)
    (h : z ∈ insertJS cmp x l) : z = x ∨ z ∈ l :=
  List.mem_cons.mp ((insertJS_perm cmp x l).subset h)

theorem insertJS_pairwise (x : α') (l : List α')
    (cmp : α' → α' → Int) (R : α' → α' → Prop)
    (hiff : ∀ a b, cmp a b ≤ 0 ↔ R a b)
    (htot : ∀ a b, R a b ∨ R b a) (htrans : ∀ a b c, R a b → R b c → R a c)
    (hl : l.Pairwise R) : (insertJS cmp x l).Pairwise R := by
  induction l with
  | nil => simp [insertJS]
  | cons y ys ih =>
    rcases hl with _ | ⟨hy, hys⟩
    by_cases h : cmp x y ≤ 0
    · simp only [insertJS, if_pos h]
      refine List.Pairwise.cons ?_ (List.Pairwise.cons hy hys)
      intro z hz
      rcases List.mem_cons.mp hz with rfl | hz
      · exact (hiff x z).mp h
      · exact htrans x y z ((hiff x y).mp h) (hy z hz)
    · simp only [insertJS, if_neg h]
      refine List.Pairwise.cons ?_ (ih hys)
      intro z hz
      rcases mem_insertJS cmp x ys z hz with rfl | hz
      · rcases htot y z with hyz | hzy
        · exact hyz
        · exact absurd ((hiff z y).mpr hzy) h
      · exact hy z hz

theorem sortJS_pairwise (l : List α')
    (cmp : α' → α' → Int) (R : α' → α' → Prop)
    (hiff : ∀ a b, cmp a b ≤ 0 ↔ R a b)
    (htot : ∀ a b, R a b ∨ R b a) (htrans : ∀ a b c, R a b → R b c → R a c) :
    (sortJS cmp l).Pairwise R := by
  induction l with
  | nil => simp [sortJS]
  | cons y ys ih =>
    exact insertJS_pairwise y (sortJS cmp ys) cmp R hiff htot htrans ih

theorem passesFilters_limit_irrel (o : ListOptions) (lim : Option Nat) :
    passesFilters { o with limit := lim } = passesFilters o := by
  funext item
  rfl

/-- Claim C9: `listItems` returns exactly the stored items passing the
equality filters, ordered by priority rank `critical(0) < high(1) <
medium(2) < low(3)` with ties broken by `createdAt` descending, then
truncated to the limit when one is supplied (and nonzero); in
particular, on the three items `(critical, createdAt 1)`, `(high,
createdAt 2)`, `(critical, createdAt 3)` it returns the order
`(critical, 3)`, `(critical, 1)`, `(high, 2)`. -/
theorem C9_listItems_filter_sort_limit :
    (∀ files o, o.limit = none →
      List.Perm (listItems files o) (files.filter (passesFilters o)) ∧
      (listItems files o).Pairwise itemLE) ∧
    (∀ files o n, o.limit = some n → n ≠ 0 →
      listItems files o = (listItems files { o with limit := none }).take n) ∧
    listItems
      [{ id := "b1", reportId := "r1", projectPath := none, comment := "", url := "",
         timestamp := 0, priority := .critical, status := .pending,
         createdAt := 1, updatedAt := 0 },
       { id := "b2", reportId := "r2", projectPath := none, comment := "", url := "",
         timestamp := 0, priority := .high, status := .pending,
         createdAt := 2, updatedAt := 0 },
       { id := "b3", reportId := "r3", projectPath := none, comment := "", url := "",
         timestamp := 0, priority := .critical, status := .pending,
         createdAt := 3, updatedAt := 0 }]
      ListOptions.noOpts =
      [{ id := "b3", reportId := "r3", projectPath := none, comment := "", url := "",
         timestamp := 0, priority := .critical, status := .pending,
         createdAt := 3, updatedAt := 0 },
       { id := "b1", reportId := "r1", projectPath := none, comment := "", url := "",
         timestamp := 0, priority := .critical, status := .pending,
         createdAt := 1, updatedAt := 0 },
       { id := "b2", reportId := "r2", projectPath := none, comment := "", url := "",
         timestamp := 0, priority := .high, status := .pending,
         createdAt := 2, updatedAt := 0 }] := by
  refine ⟨?_, ?_, by decide⟩
  · intro files o hnone
    simp only [listItems, hnone]
    exact ⟨sortJS_perm compareItems _,
      sortJS_pairwise _ compareItems itemLE compareItems_nonpos_iff itemLE_total
        itemLE_trans⟩
  · intro files o n hsome hn
    simp only [listItems, hsome, if_pos hn, passesFilters_limit_irrel]

/-- Witness for C9 at concrete inputs: the unlimited call on the
three-item store, and a limited call truncating it. -/
theorem C9_listItems_filter_sort_limit_witness :
    (ListOptions.noOpts.limit = none ∧
     (listItems
        [{ id := "b1", reportId := "r1", projectPath := none, comment := "", url := "",
           timestamp := 0, priority := Priority.critical, status := .pending,
           createdAt := 1, updatedAt := 0 }]
        ListOptions.noOpts).Pairwise itemLE) ∧
    listItems
      [{ id := "b1", reportId := "r1", projectPath := none, comment := "", url := "",
         timestamp := 0, priority := Priority.critical, status := .pending,
         createdAt := 1, updatedAt := 0 }]
      { ListOptions.noOpts with limit := some 1 } =
      (listItems
        [{ id := "b1", reportId := "r1", projectPath := none, comment := "", url := "",
           timestamp := 0, priority := Priority.critical, status := .pending,
           createdAt := 1, updatedAt := 0 }]
        { { ListOptions.noOpts with limit := some 1 } with limit := none }).take 1 :=
  ⟨⟨rfl,
    (C9_listItems_filter_sort_limit.1
      [{ id := "b1", reportId := "r1", projectPath := none, comment := "", url := "",
         timestamp := 0, priority := Priority.critical, status := .pending,
         createdAt := 1, updatedAt := 0 }]
      ListOptions.noOpts rfl).2⟩,
   C9_listItems_filter_sort_limit.2.1
     [{ id := "b1", reportId := "r1", projectPath := none, comment := "", url := "",
        timestamp := 0, priority := Priority.critical, status := .pending,
        createdAt := 1, updatedAt := 0 }]
     { ListOptions.noOpts with limit := some 1 } 1 rfl (by decide)⟩

/-- Claim C10: a `limit` of `0` is falsy in the guard
`if (options?.limit)`, so `listItems` with `limit = 0` applies no
truncation and returns exactly what it returns with no limit at all. -/
theorem C10_listItems_limit_zero (files : List BacklogItem) (o : ListOptions) :
    listItems files { o with limit := some 0 } =
      listItems files { o with limit := none } := by
  simp [listItems, passesFilters_limit_irrel]

/-! ## Screenshot store theorems -/

theorem splitAtSemi_eq_some_iff (l : List Char) (a b : List Char) :
    splitAtSemi l = some (a, b) ↔ l = a ++ ';' :: b ∧ ';' ∉ a := by
  induction l generalizing a with
  | nil =>
    simp only [splitAtSemi]
    constructor
    · intro h
      exact absurd h (by simp)
    · rintro ⟨h, _⟩
      exact absurd h (by simp)
  | cons c rest ih =>
    by_cases hc : c = ';'
    · subst hc
      have hred : splitAtSemi (';' :: rest) = some ([], rest) := rfl
      rw [hred]
      constructor
      · intro h
        obtain ⟨rfl, rfl⟩ : [] = a ∧ rest = b := by
          have h2 := Option.some.inj h
          exact ⟨congrArg Prod.fst h2, congrArg Prod.snd h2⟩
        exact ⟨rfl, by simp⟩
      · rintro ⟨heq, hnin⟩
        cases a with
        | nil =>
          simp only [List.nil_append, List.cons.injEq, true_and] at heq
          rw [heq]
        | cons a0 as =>
          simp only [List.cons_append, List.cons.injEq] at heq
          exact absurd (heq.1 ▸ List.mem_cons_self a0 as) hnin
    · simp only [splitAtSemi, if_neg hc, Option.map_eq_some']
      constructor
      · rintro ⟨⟨p1, p2⟩, hsp, heq⟩
        obtain ⟨rfl, rfl⟩ : c :: p1 = a ∧ p2 = b := by
          simpa [Prod.ext_iff] using heq
        obtain ⟨hl, hnin⟩ := (ih p1).mp hsp
        subst hl
        refine ⟨rfl, ?_⟩
        intro hmem
        rcases List.mem_cons.mp hmem with h1 | hmem
        · exact hc h1.symm
        · exact hnin hmem
      · rintro ⟨heq, hnin⟩
        cases a with
        | nil =>
          simp only [List.nil_append, List.cons.injEq] at heq
          exact absurd heq.1 hc
        | cons a0 as =>
          simp only [List.cons_append, List.cons.injEq] at heq
          obtain ⟨rfl, hrest⟩ := heq
          have hnin2 : ';' ∉ as := fun hm => hnin (List.mem_cons_of_mem _ hm)
          exact ⟨(as, b), (ih as).mpr ⟨hrest, hnin2⟩, rfl⟩

theorem charsStartWith_append (pre t : List Char) :
    charsStartWith pre (pre ++ t) = true := by
  induction pre with
  | nil => rfl
  | cons c cs ih => simp [charsStartWith, ih]

theorem eq_append_drop_of_charsStartWith (pre : List Char) (s : List Char)
    (h : charsStartWith pre s = true) : s = pre ++ s.drop pre.length := by
  induction pre generalizing s with
  | nil => simp
  | cons c cs ih =>
    cases s with
    | nil => simp [charsStartWith] at h
    | cons d ds =>
      simp only [charsStartWith, Bool.and_eq_true, decide_eq_true_eq] at h
      obtain ⟨rfl, h2⟩ := h
      have h3 := ih ds h2
      calc c :: ds = c :: (cs ++ ds.drop cs.length) := by rw [← h3]
        _ = (c :: cs) ++ (c :: ds).drop (c :: cs).length := rfl

theorem regexMatchDataUri_eq_some_iff (s : List Char) (m p : List Char) :
    regexMatchDataUri s = some (m, p) ↔
      (s = "data:".toList ++ m ++ ";base64,".toList ++ p ∧ m ≠ [] ∧ ';' ∉ m ∧
       p ≠ [] ∧ ∀ c ∈ p, isLineTerminator c = false) := by
  constructor
  · intro h
    unfold regexMatchDataUri at h
    by_cases h1 : charsStartWith ("data:".toList) s = true
    · rw [if_pos h1] at h
      cases hsp : splitAtSemi (s.drop 5) with
      | none => rw [hsp] at h; exact absurd h (by simp)
      | some pr =>
        obtain ⟨mime, after⟩ := pr
        simp only [hsp] at h
        split at h
        · split at h
          · next h2 h3 =>
              simp only [Option.some.injEq, Prod.mk.injEq] at h
              obtain ⟨rfl, rfl⟩ := h
              obtain ⟨hsplit, hnin⟩ := (splitAtSemi_eq_some_iff _ _ _).mp hsp
              have hafter : after = "base64,".toList ++ after.drop 7 :=
                eq_append_drop_of_charsStartWith ("base64,".toList) after h2.2
              refine ⟨?_, h2.1, hnin, h3.1, ?_⟩
              · have hs5 : s = "data:".toList ++ s.drop 5 :=
                  eq_append_drop_of_charsStartWith ("data:".toList) s h1
                rw [hs5, hsplit]
                rw [hafter]
                simp
              · intro c hc
                have := List.all_eq_true.mp h3.2 c hc
                simpa using this
          · exact absurd h (by simp)
        · exact absurd h (by simp)
    · rw [if_neg h1] at h
      exact absurd h (by simp)
  · rintro ⟨rfl, hm, hnin, hp, hterm⟩
    unfold regexMatchDataUri
    have hassoc : "data:".toList ++ m ++ ";base64,".toList ++ p =
        "data:".toList ++ (m ++ (";base64,".toList ++ p)) := by simp
    rw [hassoc, if_pos (charsStartWith_append _ _)]
    have hdrop5 : ("data:".toList ++ (m ++ (";base64,".toList ++ p))).drop 5 =
        m ++ (";base64,".toList ++ p) := by
      have h5 : ("data:".toList).length = 5 := rfl
      rw [← h5, List.drop_left]
    rw [hdrop5]
    have hsemi : ";base64,".toList ++ p = ';' :: ("base64,".toList ++ p) := rfl
    have hsp : splitAtSemi (m ++ (";base64,".toList ++ p)) =
        some (m, "base64,".toList ++ p) := by
      refine (splitAtSemi_eq_some_iff _ _ _).mpr ⟨?_, hnin⟩
      rw [hsemi]
    simp only [hsp]
    have hcond1 : m ≠ [] ∧
        charsStartWith ("base64,".toList) ("base64,".toList ++ p) = true :=
      ⟨hm, charsStartWith_append _ _⟩
    rw [if_pos hcond1]
    have hdrop7 : ("base64,".toList ++ p).drop 7 = p := by
      have h7 : ("base64,".toList).length = 7 := rfl
      rw [← h7, List.drop_left]
    simp only [hdrop7]
    have hcond2 : p ≠ [] ∧ (p.all (fun c => ¬ isLineTerminator c)) = true :=
      ⟨hp, List.all_eq_true.mpr (fun c hc => by simp [hterm c hc])⟩
    rw [if_pos hcond2]

theorem extractBase64_eq_some_iff (dataUri : String) (e : ExtractedData) :
    extractBase64 dataUri = some e ↔
      ∃ m p : List Char,
        dataUri.toList = "data:".toList ++ m ++ ";base64,".toList ++ p ∧ m ≠ [] ∧
        ';' ∉ m ∧ p ≠ [] ∧ (∀ c ∈ p, isLineTerminator c = false) ∧
        e = { data := bufferFromBase64 p, mimeType := String.mk m } := by
  cases hr : regexMatchDataUri dataUri.toList with
  | none =>
    simp only [extractBase64, hr]
    constructor
    · intro h
      exact absurd h (by simp)
    · rintro ⟨m, p, hdec, hm, hnin, hp, hterm, rfl⟩
      have h2 := (regexMatchDataUri_eq_some_iff dataUri.toList m p).mpr
        ⟨hdec, hm, hnin, hp, hterm⟩
      rw [hr] at h2
      exact absurd h2 (by simp)
  | some pr =>
    obtain ⟨m0, p0⟩ := pr
    obtain ⟨hdec0, hm0, hnin0, hp0, hterm0⟩ :=
      (regexMatchDataUri_eq_some_iff dataUri.toList m0 p0).mp hr
    simp only [extractBase64, hr, Option.some.injEq]
    constructor
    · intro h
      exact ⟨m0, p0, hdec0, hm0, hnin0, hp0, hterm0, h.symm⟩
    · rintro ⟨m, p, hdec, hm, hnin, hp, hterm, rfl⟩
      have h2 := (regexMatchDataUri_eq_some_iff dataUri.toList m p).mpr
        ⟨hdec, hm, hnin, hp, hterm⟩
      rw [hr] at h2
      have h3 := Option.some.inj h2
      have hm1 : m = m0 := (congrArg Prod.fst h3).symm
      have hp1 : p = p0 := (congrArg Prod.snd h3).symm
      rw [hm1, hp1]

/-- The claim-side reading of a valid screenshot data URI: the string
splits as `data:<mime>;base64,<payload>` with a non-empty,
semicolon-free MIME capture, a non-empty payload free of the line
terminators `.` refuses, and a MIME type starting with `image/`. -/
def imageDataUriOK (dataUri : String) : Prop :=
  ∃ m p : List Char,
    dataUri.toList = "data:".toList ++ m ++ ";base64,".toList ++ p ∧ m ≠ [] ∧
    ';' ∉ m ∧ p ≠ [] ∧ (∀ c ∈ p, isLineTerminator c = false) ∧
    charsStartWith ("image/".toList) m = true

/-- Claim C8: `saveScreenshot(reportId, dataUri)` throws a validation
error exactly when `dataUri` does not match
`data:<mime>;base64,<payload>` or the MIME type does not start with
`image/`; on a valid image data URI it decodes the base64 payload,
writes it under the deterministic name `screenshot-<reportId>.png`, and
returns that filename. -/
theorem C8_saveScreenshot_validation (store : ScreenshotFS) (reportId dataUri : String) :
    ((∃ err, saveScreenshot store reportId dataUri = .error err) ↔
      ¬ imageDataUriOK dataUri) ∧
    (∀ m p : List Char,
      dataUri.toList = "data:".toList ++ m ++ ";base64,".toList ++ p → m ≠ [] →
      ';' ∉ m → p ≠ [] → (∀ c ∈ p, isLineTerminator c = false) →
      charsStartWith ("image/".toList) m = true →
      saveScreenshot store reportId dataUri =
        .ok ("screenshot-" ++ reportId ++ ".png",
             setA store ("screenshot-" ++ reportId ++ ".png") (bufferFromBase64 p))) := by
  have hok : ∀ m p : List Char,
      dataUri.toList = "data:".toList ++ m ++ ";base64,".toList ++ p → m ≠ [] →
      ';' ∉ m → p ≠ [] → (∀ c ∈ p, isLineTerminator c = false) →
      charsStartWith ("image/".toList) m = true →
      saveScreenshot store reportId dataUri =
        .ok ("screenshot-" ++ reportId ++ ".png",
             setA store ("screenshot-" ++ reportId ++ ".png") (bufferFromBase64 p)) := by
    intro m p hdec hm hnin hp hterm hst
    have hx : extractBase64 dataUri =
        some { data := bufferFromBase64 p, mimeType := String.mk m } :=
      (extractBase64_eq_some_iff dataUri _).mpr ⟨m, p, hdec, hm, hnin, hp, hterm, rfl⟩
    simp only [saveScreenshot, hx]
    rw [if_neg (fun hcon => hcon hst)]
  refine ⟨⟨?_, ?_⟩, hok⟩
  · intro hErr himg
    obtain ⟨m, p, hdec, hm, hnin, hp, hterm, hst⟩ := himg
    obtain ⟨err, herr⟩ := hErr
    rw [hok m p hdec hm hnin hp hterm hst] at herr
    cases herr
  · intro hnot
    cases hx : extractBase64 dataUri with
    | none =>
      exact ⟨.invalidDataUri, by simp only [saveScreenshot, hx]⟩
    | some ext =>
      obtain ⟨m, p, hdec, hm, hnin, hp, hterm, hee⟩ :=
        (extractBase64_eq_some_iff dataUri ext).mp hx
      by_cases hst : charsStartWith ("image/".toList) ext.mimeType.toList = true
      · refine absurd ⟨m, p, hdec, hm, hnin, hp, hterm, ?_⟩ hnot
        rw [hee] at hst
        exact hst
      · refine ⟨.invalidMimeType ext.mimeType, ?_⟩
        simp only [saveScreenshot, hx]
        rw [if_pos hst]

/-- Witness for C8 at a concrete input: the data URI
`data:image/png;base64,aGk=` decodes to the bytes of `hi` and is stored
as `screenshot-r1.png`. -/
theorem C8_saveScreenshot_validation_witness :
    ("data:image/png;base64,aGk=".toList =
      "data:".toList ++ "image/png".toList ++ ";base64,".toList ++ "aGk=".toList) ∧
    saveScreenshot [] "r1" "data:image/png;base64,aGk=" =
      .ok ("screenshot-r1.png",
           setA [] "screenshot-r1.png" (bufferFromBase64 ("aGk=".toList))) :=
  ⟨by decide,
   (C8_saveScreenshot_validation [] "r1" "data:image/png;base64,aGk=").2
     ("image/png".toList) ("aGk=".toList) (by decide) (by decide) (by decide)
     (by decide) (by decide) (by decide)⟩

end DebugMCP
